import Mathlib

/-!
Verification of the frisbee-twogtp referee (frisbee-twogtp.py) against its
natural-language specification.

The development shallowly embeds the core referee logic:

* the response framer gtp_cut_response (source lines 19-29), with the
  concrete regular expression compiled to an explicit matcher;
* the blocking line reader GtpBot.raw_read (source lines 76-87), modelled
  over the sequence of lines the stream yields;
* the move-resolution functions is_move_valid, randomize_move and
  response2move (source lines 177-222), with the random draw passed as an
  explicit rational parameter and engine proposals taken at the level the
  external vertex parser delivers them;
* the turn/termination logic and the command traffic of main
  (source lines 158-252), as a step function over an explicit state that
  records the commands written to each engine and consumes scripted engine
  responses.

The board itself is an external collaborator (gomill); following the spec
it is modelled only through its contract: a placement fails exactly when
the point is off the grid or occupied, and a successful placement reports
an optional captured ko point (the capture computation is opaque; the
model reports no capture, and all theorems about ko take the ko point as
arbitrary state).
-/

set_option maxHeartbeats 1000000

namespace Frisbee

/-- Engine colours, as the B / W tags used by the referee. -/
inductive Color where
  | B
  | W
  deriving DecidableEq

/-- The opponent of a colour (main swaps player and opponent each turn). -/
def Color.other : Color → Color
  | .B => .W
  | .W => .B

/-- A board point, as the (row, col) pair used throughout the source. -/
abbrev Point := ℤ × ℤ

/-- Modelled from the spec: the external gomill board, consumed as an
opaque service whose placement fails iff the point is off the grid or
occupied.  We record the side and the occupied points. -/
structure Board where
  side : ℤ
  stones : List (Point × Color)
  deriving DecidableEq

/-- Whether a point already carries a stone. -/
def Board.occupied (b : Board) (p : Point) : Bool :=
  b.stones.any (fun sc => decide (sc.1 = p))

/-- Whether a point lies on the grid. -/
def Board.inBounds (b : Board) (p : Point) : Bool :=
  decide (0 ≤ p.1) && decide (p.1 < b.side) && decide (0 ≤ p.2) && decide (p.2 < b.side)

/-- Modelled from the spec: apply a move; fails (none) if the point is
occupied or off-grid, otherwise returns the new board and the optional
captured ko point.  The capture algorithm is external and opaque; the
model reports no capture. -/
def Board.play (b : Board) (p : Point) (c : Color) : Option (Board × Option Point) :=
  if b.inBounds p && !b.occupied p then
    some ({ b with stones := (p, c) :: b.stones }, none)
  else
    none

/-- A committed move: the string sentinels pass and skip of the source, or
a board coordinate. -/
inductive Move where
  | pass
  | skip
  | coord (r c : ℤ)
  deriving DecidableEq

/-- A proposal from an engine, at the level the source obtains after the
case-insensitive pass test and the external vertex parser
(gomill.common.move_from_vertex, spec section 6: a board coordinate in
standard vertex notation, or pass): passResp stands for any case variant
of the literal pass, vertex r c for a vertex string denoting (row, col). -/
inductive Proposal where
  | passResp
  | vertex (r c : ℤ)
  deriving DecidableEq

/-- Source is_move_valid (lines 177-186): a move is rejected if it equals
the current ko point, otherwise it is tried against a disposable copy of
the board; out-of-board or occupied placements are invalid. -/
def is_move_valid (b : Board) (ko_move : Option Point) (color : Color) (move : Point) : Bool :=
  if some move = ko_move then false
  else (b.play move color).isSome

/-- The four direction offsets of randomize_move, in source order:
north (1,0), east (0,1), south (-1,0), west (0,-1). -/
def frisbeeDirs : List (ℤ × ℤ) := [(1, 0), (0, 1), (-1, 0), (0, -1)]

/-- The loop body of randomize_move: walk the remaining directions,
adding epsilon to the running sum, returning the neighbour of the first
direction whose cumulative sum reaches the draw, else the original move. -/
def randomize_move_go (epsilon rnd : ℚ) (move : Point) : List (ℤ × ℤ) → ℚ → Point
  | [], _ => move
  | (dr, dc) :: rest, pr_sum =>
    let s := pr_sum + epsilon
    if rnd ≤ s then (move.1 + dr, move.2 + dc)
    else randomize_move_go epsilon rnd move rest s

/-- Source randomize_move (lines 188-195), with the uniform draw
random.random() passed explicitly as rnd. -/
def randomize_move (epsilon : ℚ) (move : Point) (rnd : ℚ) : Point :=
  randomize_move_go epsilon rnd move frisbeeDirs 0

/-- Spec-side description of the deflection draw (spec section 4.3, claim
C4): the first of the four directions, in the fixed order, whose
cumulative probability (k+1) * epsilon meets or exceeds the draw wins; if
none does, the move stays at the original point. -/
def deflect_spec (epsilon : ℚ) (move : Point) (u : ℚ) : Point :=
  match (List.range 4).find? (fun k : ℕ => decide (u ≤ ((k : ℚ) + 1) * epsilon)) with
  | some k =>
    let d := frisbeeDirs.getD k (0, 0)
    (move.1 + d.1, move.2 + d.2)
  | none => move

/-- Source response2move (lines 197-222): pass is returned untouched;
otherwise the proposal is gated by is_move_valid (unless invalid moves
are allowed), deflected by randomize_move, and the deflected point is
re-gated; the flag records whether the committed move equals the
proposal. -/
def response2move (allow_invalid : Bool) (epsilon : ℚ) (b : Board) (ko_move : Option Point)
    (color : Color) (response : Proposal) (rnd : ℚ) : Bool × Move :=
  match response with
  | .passResp => (true, Move.pass)
  | .vertex r c =>
    let move : Point := (r, c)
    if !allow_invalid && !is_move_valid b ko_move color move then (false, Move.skip)
    else
      let move_rnd := randomize_move epsilon move rnd
      if !is_move_valid b ko_move color move_rnd then (false, Move.skip)
      else (decide (move = move_rnd), Move.coord move_rnd.1 move_rnd.2)

/-- Whether the source draws a random number for this proposal: exactly
when randomize_move is reached, i.e. the proposal is a coordinate that is
either tolerated or valid. -/
def r2mDraws (allow_invalid : Bool) (b : Board) (ko_move : Option Point)
    (color : Color) (response : Proposal) : Bool :=
  match response with
  | .passResp => false
  | .vertex r c => allow_invalid || is_move_valid b ko_move color (r, c)

/-- Source line 232: player.has_passed is set to whether the committed
move is the pass sentinel. -/
def hasPassedB (m : Move) : Bool :=
  decide (m = Move.pass)

/-- The has-passed / break logic of the game loop (source lines 230-249)
projected onto the sequence of committed moves: the state is the pair
(flag of the current player, flag of the opponent); each turn overwrites the
flag of the current player with hasPassedB of the committed move, breaks when
both flags hold, and otherwise swaps the two roles.  Returns the index of
the turn at which the loop breaks, if any. -/
def loopBreaks : List Move → Bool → Bool → Option ℕ
  | [], _, _ => none
  | m :: ms, _, o =>
    if hasPassedB m && o then some 0
    else (loopBreaks ms o (hasPassedB m)).map (fun n => n + 1)

/-! ## Response framer (source lines 19-29) -/

/-- The failure modes of gtp_cut_response: a failed assert (empty
response, or first character outside =?), or the explicit
GtpError invalid-format raise. -/
inductive GtpFail where
  | assertionError
  | invalidFormat
  deriving DecidableEq

/-- Python str.isspace over the ASCII characters Python strip() removes. -/
def pyIsSpace (c : Char) : Bool :=
  c = ' ' || c = '\t' || c = '\n' || c = '\r' || c = '\x0b' || c = '\x0c'

/-- Python strip(): drop whitespace from both ends. -/
def pyStrip (s : String) : String :=
  ⟨((s.data.dropWhile pyIsSpace).reverse.dropWhile pyIsSpace).reverse⟩

/-- Compilation of the concrete regular expression of the source (with DOTALL)
matching a marker character, a greedy run of digits, and the remainder up
to the end of the string: group one is the marker, group two the
remainder after the digits.  It matches iff the string starts with = or
?. -/
def regexGroups (s : String) : Option (Char × String) :=
  match s.data with
  | [] => none
  | c :: rest =>
    if c = '=' ∨ c = '?' then some (c, ⟨rest.dropWhile Char.isDigit⟩)
    else none

/-- Source gtp_cut_response (lines 19-29): asserts the response is
non-empty and starts with = or ?, applies the regular expression, and
returns the success flag together with the stripped payload. -/
def gtp_cut_response (response : String) : Except GtpFail (Bool × String) :=
  match response.data with
  | [] => Except.error GtpFail.assertionError
  | c :: _ =>
    if ¬(c = '=' ∨ c = '?') then Except.error GtpFail.assertionError
    else
      match regexGroups response with
      | none => Except.error GtpFail.invalidFormat
      | some (g0, g1) => Except.ok (decide (g0 = '='), pyStrip g1)

/-! ## Blocking reader (source lines 76-87) -/

/-- Python prev[-1]; prev is never empty at the use site, the default is
irrelevant. -/
def pyLast (s : String) : Char :=
  s.data.getLast?.getD 'A'

/-- The sentinel the source initialises prev with. -/
def sentinelPrev : String := "######"

/-- The empty line readline yields once the stream is closed. -/
def emptyLine : String := ""

/-- A fully blank line. -/
def nlLine : String := "\n"

/-- The loop of raw_read: read a line, append it, stop on an empty read
(stream closed) or on a blank line whose predecessor ended with a
newline; otherwise remember the line as prev and continue.  The stream is
the list of lines readline yields; once it is exhausted readline yields
the empty string. -/
def raw_read_aux : List String → String → List String → List String
  | [], _, acc => acc ++ [emptyLine]
  | line :: rest, prev, acc =>
    let acc2 := acc ++ [line]
    if line = emptyLine then acc2
    else if pyLast prev = '\n' ∧ line = nlLine then acc2
    else raw_read_aux rest line acc2

/-- Source GtpBot.raw_read (lines 76-87): join every line read. -/
def raw_read (stream : List String) : String :=
  String.join (raw_read_aux stream sentinelPrev [])

/-- Spec-side stop condition for the reader, with the amended terminator
rule: reading stops at position i if the stream yields the empty string
there (closed stream), or if the line there is fully blank and the
previously read line ended with a newline; pnl says whether the line
before position zero counts as newline-terminated (false at the top
call, whose sentinel prev does not end with a newline). -/
def rawStopCond (ls : List String) (pnl : Bool) (i : ℕ) : Prop :=
  ls[i]? = some emptyLine ∨
    (ls[i]? = some nlLine ∧
      (if i = 0 then pnl = true else (ls[i-1]?.map pyLast) = some '\n'))

instance (ls : List String) (pnl : Bool) (i : ℕ) : Decidable (rawStopCond ls pnl i) := by
  unfold rawStopCond
  infer_instance

/-! ## The referee main (source lines 158-252) -/

/-- The command vocabulary of the referee.  The nonstandard frisbee-epsilon
command appears in the vocabulary (docstring lines 131-133 and spec
section 6) so that its absence from the traffic can be stated. -/
inductive Cmd where
  | list_commands
  | name
  | boardsize (n : ℤ)
  | komi (k : ℚ)
  | frisbee_epsilon (e : ℚ)
  | frisbee_reg_genmove (c : Color)
  | frisbee_play (c : Color) (m : Move)
  | quit
  deriving DecidableEq

/-- One scripted engine response: the framed success flag and, for
frisbee-reg_genmove, the parsed proposal (the payload of the other
commands is never consulted by main). -/
abbrev Resp := Bool × Proposal

/-- The CLI arguments main consumes (parse_args, lines 96-115). -/
structure Args where
  boardsize : ℤ
  komi : ℚ
  epsilon : ℚ
  allow_invalid : Bool

/-- The referee state: the remaining scripted responses of both engines, the
commands written to each so far, both has-passed flags, the live board,
the ko point, the index of the next random draw, the current player and
the move counter. -/
structure St where
  bScript : List Resp
  wScript : List Resp
  traceB : List Cmd
  traceW : List Cmd
  bPassed : Bool
  wPassed : Bool
  board : Board
  ko : Option Point
  rndIdx : ℕ
  current : Color
  movenum : ℕ

/-- The remaining script of one engine. -/
def St.script (s : St) : Color → List Resp
  | .B => s.bScript
  | .W => s.wScript

/-- The command trace of one engine. -/
def St.trace (s : St) : Color → List Cmd
  | .B => s.traceB
  | .W => s.traceW

/-- The has-passed flag of one engine. -/
def St.passedOf (s : St) : Color → Bool
  | .B => s.bPassed
  | .W => s.wPassed

/-- GtpBot.write: log the command on the trace of the engine. -/
def writeCmd (s : St) (c : Color) (cmd : Cmd) : St :=
  match c with
  | .B => { s with traceB := s.traceB ++ [cmd] }
  | .W => { s with traceW := s.traceW ++ [cmd] }

/-- GtpBot.read at script level: consume the next scripted response; an
exhausted stream makes raw_read return the empty string, whose framing
assert fails, so the referee aborts carrying the state reached. -/
def popResp (s : St) (c : Color) : Except St (Resp × St) :=
  match c with
  | .B =>
    match s.bScript with
    | [] => Except.error s
    | r :: rest => Except.ok (r, { s with bScript := rest })
  | .W =>
    match s.wScript with
    | [] => Except.error s
    | r :: rest => Except.ok (r, { s with wScript := rest })

/-- GtpBot.interact: write then read. -/
def interactE (s : St) (c : Color) (cmd : Cmd) : Except St (Resp × St) :=
  popResp (writeCmd s c cmd) c

/-- Set the has-passed flag of one engine. -/
def setPassed (s : St) (c : Color) (v : Bool) : St :=
  match c with
  | .B => { s with bPassed := v }
  | .W => { s with wPassed := v }

/-- GtpBot.__init__ after the spawn (lines 45-51): interact list_commands
and name, asserting success of both; the stored payloads are never read
again by main and are dropped. -/
def handshake (s : St) (c : Color) : Except St St :=
  match interactE s c Cmd.list_commands with
  | Except.error s2 => Except.error s2
  | Except.ok ((ok1, _), s2) =>
    if ok1 then
      match interactE s2 c Cmd.name with
      | Except.error s3 => Except.error s3
      | Except.ok ((ok2, _), s3) => if ok2 then Except.ok s3 else Except.error s3
    else Except.error s2

/-- The part of main before the try block (lines 162-169): construct both
bots, then send boardsize and komi to each, reading and discarding the
responses.  Any failure here escapes before the try/finally. -/
def startup (a : Args) (s : St) : Except St St :=
  match handshake s Color.B with
  | Except.error s => Except.error s
  | Except.ok s =>
  match handshake s Color.W with
  | Except.error s => Except.error s
  | Except.ok s =>
  match interactE s Color.B (Cmd.boardsize a.boardsize) with
  | Except.error s => Except.error s
  | Except.ok (_, s) =>
  match interactE s Color.W (Cmd.boardsize a.boardsize) with
  | Except.error s => Except.error s
  | Except.ok (_, s) =>
  match interactE s Color.B (Cmd.komi a.komi) with
  | Except.error s => Except.error s
  | Except.ok (_, s) =>
  match interactE s Color.W (Cmd.komi a.komi) with
  | Except.error s => Except.error s
  | Except.ok (_, s) => Except.ok s

/-- Outcome of one loop iteration: a fatal error, the double-pass break,
or continuation with swapped roles. -/
inductive TurnOut where
  | err (s : St)
  | brk (s : St)
  | cont (s : St)

/-- The reporting tail of a turn (lines 239-249): send frisbee-play to
the player and then to the opponent (responses read and discarded), break
if both flags hold, otherwise swap roles and count the move. -/
def turnReport (s : St) (move : Move) : TurnOut :=
  match interactE s s.current (Cmd.frisbee_play s.current move) with
  | Except.error s2 => TurnOut.err s2
  | Except.ok (_, s2) =>
    match interactE s2 s2.current.other (Cmd.frisbee_play s2.current move) with
    | Except.error s3 => TurnOut.err s3
    | Except.ok (_, s3) =>
      if s3.passedOf s3.current && s3.passedOf s3.current.other then TurnOut.brk s3
      else TurnOut.cont { s3 with current := s3.current.other, movenum := s3.movenum + 1 }

/-- One iteration of the game loop (lines 226-249): ask the current
player for a proposal (asserting the framed success flag), resolve it
with response2move, update the has-passed flag, update board and ko
(clearing ko on pass and skip), and report.  The board rejecting a
resolved coordinate is the fatal internal-consistency path. -/
def gameTurn (a : Args) (us : ℕ → ℚ) (s0 : St) : TurnOut :=
  let s1 := writeCmd s0 s0.current (Cmd.frisbee_reg_genmove s0.current)
  match popResp s1 s1.current with
  | Except.error s2 => TurnOut.err s2
  | Except.ok ((ok, prop), s2) =>
    if !ok then TurnOut.err s2
    else
      let u := us s2.rndIdx
      let fm := response2move a.allow_invalid a.epsilon s2.board s2.ko s2.current prop u
      let s3 :=
        if r2mDraws a.allow_invalid s2.board s2.ko s2.current prop then
          { s2 with rndIdx := s2.rndIdx + 1 }
        else s2
      let s4 := setPassed s3 s3.current (hasPassedB fm.2)
      match fm.2 with
      | Move.coord r c =>
        (match s4.board.play (r, c) s4.current with
         | none => TurnOut.err s4
         | some (b2, cap) => turnReport { s4 with board := b2, ko := cap } (Move.coord r c))
      | Move.pass => turnReport { s4 with ko := none } Move.pass
      | Move.skip => turnReport { s4 with ko := none } Move.skip

/-- How a run of the referee ended. -/
inductive ExitKind where
  | normal
  | startupError
  | loopError
  | fuelOut
  deriving DecidableEq

/-- The while-True loop, with explicit fuel standing for nontermination. -/
def gameLoop (a : Args) (us : ℕ → ℚ) : ℕ → St → St × ExitKind
  | 0, s => (s, ExitKind.fuelOut)
  | Nat.succ fuel, s =>
    match gameTurn a us s with
    | TurnOut.err s2 => (s2, ExitKind.loopError)
    | TurnOut.brk s2 => (s2, ExitKind.normal)
    | TurnOut.cont s2 => gameLoop a us fuel s2

/-- The finally block (lines 250-252): write quit to the player and then
to the opponent, without awaiting responses. -/
def sendQuit (s : St) : St :=
  writeCmd (writeCmd s s.current Cmd.quit) s.current.other Cmd.quit

/-- The initial state of main (lines 162-175): empty traces, has-passed
flags false, fresh board, no ko, black to move. -/
def initSt (a : Args) (bScript wScript : List Resp) : St :=
  { bScript := bScript, wScript := wScript, traceB := [], traceW := [],
    bPassed := false, wPassed := false,
    board := { side := a.boardsize, stones := [] }, ko := none,
    rndIdx := 0, current := Color.B, movenum := 0 }

/-- The command traffic and exit status of a run. -/
structure MainResult where
  traceB : List Cmd
  traceW : List Cmd
  exit : ExitKind
  deriving DecidableEq

/-- main (lines 158-252) over scripted engines: startup, then the
try/finally-guarded loop.  A startup failure escapes before the finally,
so no quit is written on that path; the loop paths (break and fatal
error) run the finally; running out of fuel stands for a loop that is
still running. -/
def mainModel (a : Args) (us : ℕ → ℚ) (bScript wScript : List Resp) (fuel : ℕ) : MainResult :=
  match startup a (initSt a bScript wScript) with
  | Except.error s =>
    { traceB := s.traceB, traceW := s.traceW, exit := ExitKind.startupError }
  | Except.ok s =>
    match gameLoop a us fuel s with
    | (s2, ExitKind.fuelOut) =>
      { traceB := s2.traceB, traceW := s2.traceW, exit := ExitKind.fuelOut }
    | (s2, ExitKind.normal) =>
      { traceB := (sendQuit s2).traceB, traceW := (sendQuit s2).traceW,
        exit := ExitKind.normal }
    | (s2, ExitKind.loopError) =>
      { traceB := (sendQuit s2).traceB, traceW := (sendQuit s2).traceW,
        exit := ExitKind.loopError }
    | (s2, ExitKind.startupError) =>
      { traceB := (sendQuit s2).traceB, traceW := (sendQuit s2).traceW,
        exit := ExitKind.startupError }

/-- The default CLI arguments (lines 103-110): boardsize 19, komi 7.5,
epsilon 0.2, invalid moves not allowed. -/
def argsDefault : Args :=
  { boardsize := 19, komi := 15 / 2, epsilon := 1 / 5, allow_invalid := false }

/-- A constant random source for concrete runs that draw nothing. -/
def usZero : ℕ → ℚ := fun _ => 0

/-- Every command on both traces satisfies P. -/
def TraceOnly (P : Cmd → Prop) (s : St) : Prop :=
  (∀ cmd, cmd ∈ s.traceB → P cmd) ∧ (∀ cmd, cmd ∈ s.traceW → P cmd)

/-- TraceOnly lifted over a read outcome. -/
def ExceptRTraceOnly (P : Cmd → Prop) : Except St (Resp × St) → Prop
  | Except.error s => TraceOnly P s
  | Except.ok (_, s) => TraceOnly P s

/-- TraceOnly lifted over a startup outcome. -/
def ExceptTraceOnly (P : Cmd → Prop) : Except St St → Prop
  | Except.error s => TraceOnly P s
  | Except.ok s => TraceOnly P s

/-- TraceOnly lifted over a turn outcome. -/
def TurnOutTraceOnly (P : Cmd → Prop) : TurnOut → Prop
  | TurnOut.err s => TraceOnly P s
  | TurnOut.brk s => TraceOnly P s
  | TurnOut.cont s => TraceOnly P s

/-! ## Concrete inputs used by witnesses and counterexamples -/

/-- The well-formed success response example from the spec. -/
def respEqEx : String := "=123 foo"

/-- The well-formed failure response example from the spec. -/
def respQmEx : String := "?77 bad"

/-- Expected payload of respEqEx. -/
def fooStr : String := "foo"

/-- Expected payload of respQmEx. -/
def badStr : String := "bad"

/-- A marked response used to exercise the regular expression. -/
def respMarked : String := "=ok"

/-- A stream whose second blank line follows another blank line. -/
def xLine : String := "x\n"

/-- A non-blank content line. -/
def aLine : String := "a\n"

/-- Another non-blank content line. -/
def zLine : String := "z\n"

/-- What raw_read returns on two leading blank lines. -/
def twoBlanks : String := "\n\n"

/-- What the claimed terminator rule would return on the two-blank
stream: everything up to the blank line after the non-blank one. -/
def blankBlankFull : String := "\n\nx\n"

/-- Content line followed by the blank terminator. -/
def contentThenBlank : String := "a\n\n"

/-- An empty board of side five with a ko point at (2, 2). -/
def koBoard : Board := { side := 5, stones := [] }

/-- A black script for a two-turn pass-pass game in which the boardsize
response and one frisbee-play response fail: entries are the responses to
list_commands, name, boardsize, komi, frisbee-reg_genmove, and the two
frisbee-play reports. -/
def famBlack (b3 b4 p6 p7 : Bool) : List Resp :=
  [(true, Proposal.passResp), (true, Proposal.passResp), (b3, Proposal.passResp),
   (b4, Proposal.passResp), (true, Proposal.passResp), (p6, Proposal.passResp),
   (p7, Proposal.passResp)]

/-- The matching white script: list_commands, name, boardsize, komi, the
first frisbee-play report, frisbee-reg_genmove, the second report. -/
def famWhite (b3 b4 p5 p7 : Bool) : List Resp :=
  [(true, Proposal.passResp), (true, Proposal.passResp), (b3, Proposal.passResp),
   (b4, Proposal.passResp), (p5, Proposal.passResp), (true, Proposal.passResp),
   (p7, Proposal.passResp)]

/-- A black engine whose very first (list_commands) response fails. -/
def failHandshakeScript : List Resp := [(false, Proposal.passResp)]

/-! ## Theorems -/

/-- Unrolling of the four-step walk of randomize_move. -/
theorem randomize_move_eq (eps u : ℚ) (r c : ℤ) :
    randomize_move eps (r, c) u =
      if u ≤ eps then (r + 1, c)
      else if u ≤ eps + eps then (r, c + 1)
      else if u ≤ eps + eps + eps then (r - 1, c)
      else if u ≤ eps + eps + eps + eps then (r, c - 1)
      else (r, c) := by
  simp only [randomize_move, frisbeeDirs, randomize_move_go, zero_add, add_zero,
    sub_eq_add_neg]

/-- Unrolling of deflect_spec. -/
theorem deflect_spec_eq (eps u : ℚ) (r c : ℤ) :
    deflect_spec eps (r, c) u =
      if u ≤ 1 * eps then (r + 1, c)
      else if u ≤ 2 * eps then (r, c + 1)
      else if u ≤ 3 * eps then (r - 1, c)
      else if u ≤ 4 * eps then (r, c - 1)
      else (r, c) := by
  have hr : List.range 4 = [0, 1, 2, 3] := rfl
  simp only [deflect_spec, hr, List.find?, frisbeeDirs]
  norm_num
  by_cases h1 : u ≤ eps <;> by_cases h2 : u ≤ 2 * eps <;>
    by_cases h3 : u ≤ 3 * eps <;> by_cases h4 : u ≤ 4 * eps <;>
    simp [h1, h2, h3, h4, sub_eq_add_neg]

/-- C4: the deflection walk visits north, east, south, west in that fixed
order, accumulating epsilon, and commits the first direction whose
cumulative mass meets or exceeds the draw, falling back to the original
point; when the cumulative mass reaches one at the second step, south and
west (and staying) are unreachable for draws below one. -/
theorem deflection_walk_characterization (eps u : ℚ) (r c : ℤ) (h0 : 0 ≤ u) (h1 : u < 1) :
    randomize_move eps (r, c) u = deflect_spec eps (r, c) u ∧
    (1 ≤ eps + eps →
      randomize_move eps (r, c) u = (r + 1, c) ∨ randomize_move eps (r, c) u = (r, c + 1)) := by
  constructor
  · rw [randomize_move_eq, deflect_spec_eq, one_mul]
    have e2 : 2 * eps = eps + eps := by ring
    have e3 : 3 * eps = eps + eps + eps := by ring
    have e4 : 4 * eps = eps + eps + eps + eps := by ring
    rw [e2, e3, e4]
  · intro h2
    rw [randomize_move_eq]
    by_cases hA : u ≤ eps
    · simp [hA]
    · have hB : u ≤ eps + eps := le_trans h1.le h2
      simp [hA, hB]

/-- Witness for the deflection characterization at a concrete input. -/
theorem deflection_walk_characterization_witness :
    (0:ℚ) ≤ 1/2 ∧ (1/2:ℚ) < 1 ∧
    (randomize_move (3/10) ((4:ℤ), (4:ℤ)) (1/2) = deflect_spec (3/10) ((4:ℤ), (4:ℤ)) (1/2) ∧
     (1 ≤ (3/10:ℚ) + 3/10 →
       randomize_move (3/10) ((4:ℤ), (4:ℤ)) (1/2) = ((4:ℤ) + 1, (4:ℤ)) ∨
       randomize_move (3/10) ((4:ℤ), (4:ℤ)) (1/2) = ((4:ℤ), (4:ℤ) + 1))) :=
  ⟨by norm_num, by norm_num,
   deflection_walk_characterization (3/10) (1/2) 4 4 (by norm_num) (by norm_num)⟩

/-- C3 counterexample: with epsilon zero, the draw u = 0 (a possible value
of random.random(), which ranges over [0,1)) deflects a legal proposal:
the resolver returns the north neighbour (2,1) instead of the proposed
(1,1), because the walk test is u ≤ cumulative-sum and 0 ≤ 0 holds. -/
theorem epsilon_zero_draw_zero_deflects_cex :
    response2move false 0 { side := 19, stones := [] } none Color.B (Proposal.vertex 1 2) 0
      = (false, Move.coord 2 2) ∧
    response2move false 0 { side := 19, stones := [] } none Color.B (Proposal.vertex 1 2) 0
      ≠ (true, Move.coord 1 2) ∧
    is_move_valid { side := 19, stones := [] } none Color.B (1, 2) = true ∧
    (0:ℚ) ≤ 0 ∧ (0:ℚ) < 1 := by
  have hrnd : randomize_move 0 ((1:ℤ), (2:ℤ)) 0 = (2, 2) := by
    rw [randomize_move_eq]
    norm_num
  have hv1 : is_move_valid { side := 19, stones := [] } none Color.B (1, 2) = true := by decide
  have hv2 : is_move_valid { side := 19, stones := [] } none Color.B (2, 2) = true := by decide
  have hmain : response2move false 0 { side := 19, stones := [] } none Color.B
      (Proposal.vertex 1 2) 0 = (false, Move.coord 2 2) := by
    simp [response2move, hrnd, hv1, hv2]
  refine ⟨hmain, ?_, hv1, le_refl 0, by norm_num⟩
  rw [hmain]
  decide

/-- C3 amended: with epsilon zero and any draw strictly between zero and
one, a legal coordinate proposal is never deflected: the resolver returns
the proposal itself with the matched flag set. -/
theorem epsilon_zero_positive_draw_no_deflection
    (b : Board) (ko : Option Point) (color : Color) (r c : ℤ) (u : ℚ) (allow : Bool)
    (hu : 0 < u) (hu1 : u < 1)
    (hv : is_move_valid b ko color (r, c) = true) :
    response2move allow 0 b ko color (Proposal.vertex r c) u = (true, Move.coord r c) := by
  have hrnd : randomize_move 0 (r, c) u = (r, c) := by
    rw [randomize_move_eq]
    have hn : ¬ u ≤ 0 := not_le.mpr hu
    simp [hn]
  simp [response2move, hv, hrnd]

/-- Witness for the amended epsilon-zero claim. -/
theorem epsilon_zero_positive_draw_no_deflection_witness :
    (0:ℚ) < 1/2 ∧ (1/2:ℚ) < 1 ∧
    is_move_valid { side := 19, stones := [] } none Color.B (1, 2) = true ∧
    response2move false 0 { side := 19, stones := [] } none Color.B (Proposal.vertex 1 2) (1/2)
      = (true, Move.coord 1 2) :=
  ⟨by norm_num, by norm_num, by decide,
   epsilon_zero_positive_draw_no_deflection _ none Color.B 1 2 (1/2) false
     (by norm_num) (by norm_num) (by decide)⟩

/-- C5: on a non-empty response the framer returns success exactly for a
leading =, failure payload-wise identically for a leading ?, with the
echoed id (a greedy digit run) removed and surrounding whitespace
stripped; any other first character fails the format assert of the source.
The two concrete examples given in the spec are included. -/
theorem framer_success_failure_payload :
    (∀ (s : String) (c : Char) (rest : List Char), s.data = c :: rest →
      ((c = '=' →
          gtp_cut_response s = Except.ok (true, pyStrip ⟨rest.dropWhile Char.isDigit⟩)) ∧
       (c = '?' →
          gtp_cut_response s = Except.ok (false, pyStrip ⟨rest.dropWhile Char.isDigit⟩)) ∧
       (¬(c = '=' ∨ c = '?') →
          gtp_cut_response s = Except.error GtpFail.assertionError))) ∧
    gtp_cut_response respEqEx = Except.ok (true, fooStr) ∧
    gtp_cut_response respQmEx = Except.ok (false, badStr) := by
  refine ⟨?_, rfl, rfl⟩
  intro s c rest h
  obtain ⟨data⟩ := s
  cases h
  refine ⟨?_, ?_, ?_⟩
  · intro hc
    subst hc
    simp [gtp_cut_response, regexGroups]
  · intro hc
    subst hc
    simp [gtp_cut_response, regexGroups]
  · intro hc
    simp [gtp_cut_response, regexGroups, hc]

/-- Witness for the framer contract on the example inputs given in the spec. -/
theorem framer_success_failure_payload_witness :
    gtp_cut_response respEqEx = Except.ok (true, pyStrip ⟨(['1', '2', '3', ' ', 'f', 'o', 'o'].dropWhile Char.isDigit)⟩) ∧
    gtp_cut_response respQmEx = Except.ok (false, pyStrip ⟨(['7', '7', ' ', 'b', 'a', 'd'].dropWhile Char.isDigit)⟩) :=
  ⟨((framer_success_failure_payload.1 respEqEx '=' ['1', '2', '3', ' ', 'f', 'o', 'o'] rfl).1 rfl),
   ((framer_success_failure_payload.1 respQmEx '?' ['7', '7', ' ', 'b', 'a', 'd'] rfl).2.1 rfl)⟩

/-- C10: for every string starting with = or ?, the compiled pattern
matches, so the invalid-format raise is unreachable and the framer
returns a pair. -/
theorem framer_regex_total_on_marked_input :
    ∀ (s : String) (c : Char) (rest : List Char), s.data = c :: rest →
      (c = '=' ∨ c = '?') →
      regexGroups s ≠ none ∧
      gtp_cut_response s ≠ Except.error GtpFail.invalidFormat ∧
      ∃ p, gtp_cut_response s = Except.ok p := by
  intro s c rest h hc
  obtain ⟨data⟩ := s
  cases h
  refine ⟨?_, ?_, ?_⟩
  · simp [regexGroups, hc]
  · rcases hc with hc | hc <;> subst hc <;> simp [gtp_cut_response, regexGroups]
  · rcases hc with hc | hc <;> subst hc
    · exact ⟨(true, pyStrip ⟨rest.dropWhile Char.isDigit⟩),
        by simp [gtp_cut_response, regexGroups]⟩
    · exact ⟨(false, pyStrip ⟨rest.dropWhile Char.isDigit⟩),
        by simp [gtp_cut_response, regexGroups]⟩

/-- Witness: the pattern matches a concrete marked response. -/
theorem framer_regex_total_on_marked_input_witness :
    regexGroups respMarked ≠ none ∧
    gtp_cut_response respMarked ≠ Except.error GtpFail.invalidFormat ∧
    ∃ p, gtp_cut_response respMarked = Except.ok p :=
  framer_regex_total_on_marked_input respMarked '=' ['o', 'k'] rfl (Or.inl rfl)

/-- C7: a proposal equal to the ko point is always judged illegal; when
illegal proposals are not tolerated it resolves to skip for every epsilon
and draw; when they are tolerated and the deflection lands on a legal
point, that deflected point is the committed move; and a legal proposal
deflected onto the ko point resolves to skip. -/
theorem ko_point_rejection :
    ∀ (b : Board) (kr kc : ℤ) (color : Color) (epsilon u : ℚ) (r c : ℤ) (allow : Bool),
      is_move_valid b (some (kr, kc)) color (kr, kc) = false ∧
      response2move false epsilon b (some (kr, kc)) color (Proposal.vertex kr kc) u
        = (false, Move.skip) ∧
      (is_move_valid b (some (kr, kc)) color (randomize_move epsilon (kr, kc) u) = true →
        response2move true epsilon b (some (kr, kc)) color (Proposal.vertex kr kc) u
          = (false, Move.coord (randomize_move epsilon (kr, kc) u).1
              (randomize_move epsilon (kr, kc) u).2)) ∧
      (is_move_valid b (some (kr, kc)) color (r, c) = true →
        randomize_move epsilon (r, c) u = (kr, kc) →
        response2move allow epsilon b (some (kr, kc)) color (Proposal.vertex r c) u
          = (false, Move.skip)) := by
  intro b kr kc color epsilon u r c allow
  have hko : is_move_valid b (some (kr, kc)) color (kr, kc) = false := by
    simp [is_move_valid]
  refine ⟨hko, ?_, ?_, ?_⟩
  · simp [response2move, hko]
  · intro hv
    have hne : ((kr, kc) : Point) ≠ randomize_move epsilon (kr, kc) u := by
      intro he
      rw [← he, hko] at hv
      exact Bool.false_ne_true hv
    simp [response2move, hv, hne]
  · intro hv hrnd
    simp [response2move, hv, hrnd, hko]

/-- Witness for the ko rejection theorem at concrete inputs: an empty
five-board with ko point (2,2), epsilon one and draw one-half (so the
deflection always goes north), and the neighbouring proposal (1,2) that
deflects onto the ko point. -/
theorem ko_point_rejection_witness :
    is_move_valid koBoard (some (2, 2)) Color.B (2, 2) = false ∧
    response2move false 1 koBoard (some (2, 2)) Color.B (Proposal.vertex 2 2) (1/2)
      = (false, Move.skip) ∧
    response2move true 1 koBoard (some (2, 2)) Color.B (Proposal.vertex 2 2) (1/2)
      = (false, Move.coord (randomize_move 1 ((2:ℤ), (2:ℤ)) (1/2)).1
          (randomize_move 1 ((2:ℤ), (2:ℤ)) (1/2)).2) ∧
    response2move false 1 koBoard (some (2, 2)) Color.B (Proposal.vertex 1 2) (1/2)
      = (false, Move.skip) := by
  have hrnd : randomize_move 1 ((2:ℤ), (2:ℤ)) (1/2) = (3, 2) := by
    rw [randomize_move_eq]
    norm_num
  have hrnd2 : randomize_move 1 ((1:ℤ), (2:ℤ)) (1/2) = (2, 2) := by
    rw [randomize_move_eq]
    norm_num
  obtain ⟨h1, h2, h3, h4⟩ := ko_point_rejection koBoard 2 2 Color.B 1 (1/2) 1 2 false
  exact ⟨h1, h2, h3 (by rw [hrnd]; decide), h4 (by decide) hrnd2⟩

/-- Index characterization of loopBreaks, generalized over the opponent
flag carried into the remaining turns. -/
theorem loopBreaks_iff (ms : List Move) : ∀ (i : ℕ) (x o : Bool),
    loopBreaks ms x o = some i ↔
      (ms[i]? = some Move.pass ∧
       (if i = 0 then o = true else ms[i-1]? = some Move.pass) ∧
       ∀ j, j < i → ¬(ms[j]? = some Move.pass ∧
         (if j = 0 then o = true else ms[j-1]? = some Move.pass))) := by
  induction ms with
  | nil =>
    intro i x o
    simp [loopBreaks]
  | cons m ms ih =>
    intro i x o
    rw [loopBreaks]
    by_cases hbo : (hasPassedB m && o) = true
    · rw [if_pos hbo]
      rw [Bool.and_eq_true] at hbo
      have hm : m = Move.pass := by simpa [hasPassedB] using hbo.1
      have ho : o = true := hbo.2
      constructor
      · intro h
        have hi : i = 0 := (Option.some.inj h).symm
        subst hi
        refine ⟨by simp [hm], by simp [ho], ?_⟩
        intro j hj
        omega
      · rintro ⟨h1, h2, h3⟩
        rcases Nat.eq_zero_or_pos i with hi | hi
        · subst hi; rfl
        · exact absurd ⟨by simp [hm], by simp [ho]⟩ (h3 0 hi)
    · rw [if_neg hbo]
      have hno : ¬(m = Move.pass ∧ o = true) := by
        rintro ⟨h1, h2⟩
        exact hbo (by simp [hasPassedB, h1, h2])
      constructor
      · intro h
        obtain ⟨i2, hi2, hii⟩ := Option.map_eq_some'.mp h
        subst hii
        obtain ⟨g1, g2, g3⟩ := (ih i2 o (hasPassedB m)).mp hi2
        refine ⟨by simpa using g1, ?_, ?_⟩
        · rw [if_neg (Nat.succ_ne_zero i2)]
          cases i2 with
          | zero =>
            have hm2 : m = Move.pass := by simpa [hasPassedB] using g2
            simp [hm2]
          | succ k => simpa using g2
        · rintro j hj ⟨c1, c2⟩
          cases j with
          | zero =>
            apply hno
            exact ⟨by simpa using c1, by simpa using c2⟩
          | succ k =>
            apply g3 k (by omega)
            refine ⟨by simpa using c1, ?_⟩
            cases k with
            | zero =>
              have hm2 : m = Move.pass := by simpa using c2
              simp [hasPassedB, hm2]
            | succ k2 => simpa using c2
      · rintro ⟨h1, h2, h3⟩
        cases i with
        | zero =>
          exact absurd ⟨by simpa using h1, by simpa using h2⟩ hno
        | succ i2 =>
          have hrec : loopBreaks ms o (hasPassedB m) = some i2 := by
            apply (ih i2 o (hasPassedB m)).mpr
            refine ⟨by simpa using h1, ?_, ?_⟩
            · cases i2 with
              | zero =>
                have hm2 : m = Move.pass := by
                  have := h2
                  rw [if_neg (Nat.succ_ne_zero 0)] at this
                  simpa using this
                simp [hasPassedB, hm2]
              | succ k =>
                have := h2
                rw [if_neg (Nat.succ_ne_zero (k+1))] at this
                simpa using this
            · rintro j hj ⟨c1, c2⟩
              apply h3 (j+1) (by omega)
              refine ⟨by simpa using c1, ?_⟩
              rw [if_neg (Nat.succ_ne_zero j)]
              cases j with
              | zero =>
                have hm2 : m = Move.pass := by simpa [hasPassedB] using c2
                simp [hm2]
              | succ k => simpa using c2
          rw [hrec]
          rfl

/-- C6: the game loop breaks exactly at the first turn whose committed
move is pass and whose immediately preceding committed move is also pass;
skip and coordinate moves set the has-passed flag of the mover to false and
never count toward termination. -/
theorem double_pass_termination_iff :
    ∀ (ms : List Move) (i : ℕ),
      (loopBreaks ms false false = some i ↔
        (1 ≤ i ∧ ms[i]? = some Move.pass ∧ ms[i-1]? = some Move.pass ∧
         ∀ j, j < i → 1 ≤ j →
           ¬(ms[j]? = some Move.pass ∧ ms[j-1]? = some Move.pass))) ∧
      (∀ m : Move, hasPassedB m = true ↔ m = Move.pass) ∧
      hasPassedB Move.skip = false ∧
      (∀ r c : ℤ, hasPassedB (Move.coord r c) = false) := by
  intro ms i
  refine ⟨?_, fun m => by simp [hasPassedB], rfl, fun r c => rfl⟩
  rw [loopBreaks_iff ms i false false]
  constructor
  · rintro ⟨h1, h2, h3⟩
    cases i with
    | zero => simp at h2
    | succ i2 =>
      refine ⟨by omega, h1, by simpa using h2, ?_⟩
      rintro j hj2 hj1 ⟨c1, c2⟩
      apply h3 j hj2
      refine ⟨c1, ?_⟩
      rw [if_neg (by omega : j ≠ 0)]
      exact c2
  · rintro ⟨h0, h1, h2, h3⟩
    refine ⟨h1, by rw [if_neg (by omega : i ≠ 0)]; exact h2, ?_⟩
    rintro j hj ⟨c1, c2⟩
    cases j with
    | zero => simp at c2
    | succ k =>
      apply h3 (k+1) hj (by omega)
      refine ⟨c1, ?_⟩
      rw [if_neg (Nat.succ_ne_zero k)] at c2
      exact c2

/-- Witness: with a skip followed by two passes the loop breaks exactly
at the second pass. -/
theorem double_pass_termination_iff_witness :
    loopBreaks [Move.skip, Move.pass, Move.pass] false false = some 2 :=
  ((double_pass_termination_iff [Move.skip, Move.pass, Move.pass] 2).1).mpr (by decide)

/-- Shifting the reader stop condition across the head of the stream. -/
theorem rawStopCond_shift (line : String) (rest : List String) (pnl : Bool) (j : ℕ) :
    rawStopCond (line :: rest) pnl (j+1) ↔
      rawStopCond rest (decide (pyLast line = '\n')) j := by
  unfold rawStopCond
  cases j with
  | zero => simp
  | succ k => simp

/-- The reader loop, characterized by the first stopping position, with
the flag saying whether the line before the window ends in a newline. -/
theorem raw_read_aux_spec :
    ∀ (ls : List String) (prev : String) (acc : List String),
      (∀ i : ℕ,
        (rawStopCond ls (decide (pyLast prev = '\n')) i ∧
         ∀ j, j < i → ¬ rawStopCond ls (decide (pyLast prev = '\n')) j) →
        raw_read_aux ls prev acc = acc ++ ls.take (i+1)) ∧
      ((∀ i : ℕ, ¬ rawStopCond ls (decide (pyLast prev = '\n')) i) →
        raw_read_aux ls prev acc = acc ++ ls ++ [emptyLine]) := by
  intro ls
  induction ls with
  | nil =>
    intro prev acc
    constructor
    · rintro i ⟨hstop, _⟩
      rcases hstop with h | ⟨h, _⟩ <;> simp [rawStopCond] at h
    · intro _
      simp [raw_read_aux]
  | cons line rest ih =>
    intro prev acc
    simp only [raw_read_aux]
    by_cases hE : line = emptyLine
    · rw [if_pos hE]
      have h0 : rawStopCond (line :: rest) (decide (pyLast prev = '\n')) 0 :=
        Or.inl (by simp [hE])
      constructor
      · rintro i ⟨hstop, hmin⟩
        have hi : i = 0 := by
          by_contra hne
          exact hmin 0 (by omega) h0
        subst hi
        simp
      · intro hno
        exact absurd h0 (hno 0)
    · rw [if_neg hE]
      by_cases hB : pyLast prev = '\n' ∧ line = nlLine
      · rw [if_pos hB]
        have h0 : rawStopCond (line :: rest) (decide (pyLast prev = '\n')) 0 :=
          Or.inr (by simp [hB.2, hB.1])
        constructor
        · rintro i ⟨hstop, hmin⟩
          have hi : i = 0 := by
            by_contra hne
            exact hmin 0 (by omega) h0
          subst hi
          simp
        · intro hno
          exact absurd h0 (hno 0)
      · rw [if_neg hB]
        have hno0 : ¬ rawStopCond (line :: rest) (decide (pyLast prev = '\n')) 0 := by
          rintro (h | ⟨h, hp⟩)
          · exact hE (by simpa [rawStopCond] using h)
          · apply hB
            refine ⟨by simpa using hp, by simpa using h⟩
        constructor
        · rintro i ⟨hstop, hmin⟩
          cases i with
          | zero => exact absurd hstop hno0
          | succ i2 =>
            have hstop2 : rawStopCond rest (decide (pyLast line = '\n')) i2 :=
              (rawStopCond_shift line rest _ i2).mp hstop
            have hmin2 : ∀ j, j < i2 → ¬ rawStopCond rest (decide (pyLast line = '\n')) j := by
              intro j hj hc
              exact hmin (j+1) (by omega) ((rawStopCond_shift line rest _ j).mpr hc)
            rw [(ih line (acc ++ [line])).1 i2 ⟨hstop2, hmin2⟩]
            simp
        · intro hno
          have hno2 : ∀ i, ¬ rawStopCond rest (decide (pyLast line = '\n')) i := by
            intro i hc
            exact hno (i+1) ((rawStopCond_shift line rest _ i).mpr hc)
          rw [(ih line (acc ++ [line])).2 hno2]
          simp

/-- Joining a trailing empty line changes nothing. -/
theorem join_append_emptyLine (l : List String) :
    String.join (l ++ [emptyLine]) = String.join l := by
  simp [String.join, List.foldl_append, emptyLine]

/-- C8 amended: the reader returns the concatenation of the stream up to
and including the first position satisfying the stop condition: an empty
read (closed stream), or a fully blank line immediately following a
newline-terminated line (blank or not); a blank very first line never
stops it; if no position stops it, the whole stream plus the final empty
read is returned. -/
theorem raw_read_stop_characterization :
    ∀ ls : List String,
      (∀ i : ℕ,
        (rawStopCond ls false i ∧ ∀ j, j < i → ¬ rawStopCond ls false j) →
        raw_read ls = String.join (ls.take (i+1))) ∧
      ((∀ i : ℕ, ¬ rawStopCond ls false i) → raw_read ls = String.join ls) := by
  intro ls
  have hpnl : decide (pyLast sentinelPrev = '\n') = false := by decide
  constructor
  · rintro i ⟨h1, h2⟩
    unfold raw_read
    rw [(raw_read_aux_spec ls sentinelPrev []).1 i (by rw [hpnl]; exact ⟨h1, h2⟩)]
    simp
  · intro hno
    unfold raw_read
    rw [(raw_read_aux_spec ls sentinelPrev []).2 (by rw [hpnl]; exact hno)]
    rw [List.nil_append, join_append_emptyLine]

/-- Witness: on a content line, a blank line, and further content, the
reader stops right after the blank line that follows the content line. -/
theorem raw_read_stop_characterization_witness :
    raw_read [aLine, nlLine, zLine] = String.join ([aLine, nlLine, zLine].take 2) :=
  (raw_read_stop_characterization [aLine, nlLine, zLine]).1 1 (by decide)

/-- C8 counterexample: on a stream beginning with two blank lines the
reader stops at the second one, although no non-blank line precedes it
and the stream is not closed; the claimed rule would have read on and
returned the whole stream. -/
theorem raw_read_blank_after_blank_cex :
    raw_read [nlLine, nlLine, xLine] = twoBlanks ∧
    raw_read [nlLine, nlLine, xLine] ≠ blankBlankFull := by
  refine ⟨by decide, by decide⟩

/-- Writing a command preserves a trace predicate that holds of it. -/
theorem traceOnly_writeCmd {P : Cmd → Prop} {s : St} (h : TraceOnly P s)
    (c : Color) {cmd : Cmd} (hc : P cmd) : TraceOnly P (writeCmd s c cmd) := by
  cases c
  · refine ⟨?_, h.2⟩
    intro x hx
    rcases List.mem_append.mp hx with h1 | h1
    · exact h.1 x h1
    · rw [List.mem_singleton.mp h1]
      exact hc
  · refine ⟨h.1, ?_⟩
    intro x hx
    rcases List.mem_append.mp hx with h1 | h1
    · exact h.2 x h1
    · rw [List.mem_singleton.mp h1]
      exact hc

/-- Reading a response leaves the traces untouched. -/
theorem traceOnly_popResp {P : Cmd → Prop} {s : St} (h : TraceOnly P s) (c : Color) :
    ExceptRTraceOnly P (popResp s c) := by
  unfold popResp
  split
  · split
    · exact h
    · exact h
  · split
    · exact h
    · exact h

/-- interact preserves a trace predicate holding of the command sent. -/
theorem traceOnly_interactE {P : Cmd → Prop} {s : St} (h : TraceOnly P s)
    (c : Color) {cmd : Cmd} (hc : P cmd) : ExceptRTraceOnly P (interactE s c cmd) :=
  traceOnly_popResp (traceOnly_writeCmd h c hc) c

/-- The handshake only writes list_commands and name. -/
theorem traceOnly_handshake {P : Cmd → Prop} {s : St} (h : TraceOnly P s) (c : Color)
    (hlc : P Cmd.list_commands) (hname : P Cmd.name) :
    ExceptTraceOnly P (handshake s c) := by
  unfold handshake
  have h1 := traceOnly_interactE h c hlc
  split
  · next heq => rw [heq] at h1; exact h1
  · next ok1 x s2 heq =>
    rw [heq] at h1
    by_cases hok : ok1 = true
    · rw [if_pos hok]
      have h2 := traceOnly_interactE h1 c hname
      split
      · next heq2 => rw [heq2] at h2; exact h2
      · next ok2 y s3 heq2 =>
        rw [heq2] at h2
        by_cases hok2 : ok2 = true
        · rw [if_pos hok2]; exact h2
        · rw [if_neg hok2]; exact h2
    · rw [if_neg hok]; exact h1

/-- Startup only writes the two handshake queries, boardsize and komi. -/
theorem traceOnly_startup {P : Cmd → Prop} (a : Args) {s : St} (h : TraceOnly P s)
    (hlc : P Cmd.list_commands) (hname : P Cmd.name)
    (hbs : ∀ n, P (Cmd.boardsize n)) (hk : ∀ q, P (Cmd.komi q)) :
    ExceptTraceOnly P (startup a s) := by
  unfold startup
  have h1 := traceOnly_handshake h Color.B hlc hname
  split
  · next heq => rw [heq] at h1; exact h1
  · next s1 heq =>
    rw [heq] at h1
    have h2 := traceOnly_handshake h1 Color.W hlc hname
    split
    · next heq2 => rw [heq2] at h2; exact h2
    · next s2 heq2 =>
      rw [heq2] at h2
      have h3 := traceOnly_interactE h2 Color.B (hbs a.boardsize)
      split
      · next heq3 => rw [heq3] at h3; exact h3
      · next r3 s3 heq3 =>
        rw [heq3] at h3
        have h4 := traceOnly_interactE h3 Color.W (hbs a.boardsize)
        split
        · next heq4 => rw [heq4] at h4; exact h4
        · next r4 s4 heq4 =>
          rw [heq4] at h4
          have h5 := traceOnly_interactE h4 Color.B (hk a.komi)
          split
          · next heq5 => rw [heq5] at h5; exact h5
          · next r5 s5 heq5 =>
            rw [heq5] at h5
            have h6 := traceOnly_interactE h5 Color.W (hk a.komi)
            split
            · next heq6 => rw [heq6] at h6; exact h6
            · next r6 s6 heq6 => rw [heq6] at h6; exact h6

/-- Setting a has-passed flag leaves the traces untouched. -/
theorem traceOnly_setPassed {P : Cmd → Prop} {s : St} (h : TraceOnly P s)
    (c : Color) (v : Bool) : TraceOnly P (setPassed s c v) := by
  cases c <;> exact h

/-- Reporting a move only writes the two frisbee-play commands. -/
theorem traceOnly_turnReport {P : Cmd → Prop} {s : St} (h : TraceOnly P s)
    (hplay : ∀ c m, P (Cmd.frisbee_play c m)) (move : Move) :
    TurnOutTraceOnly P (turnReport s move) := by
  unfold turnReport
  have h1 := traceOnly_interactE h s.current (hplay s.current move)
  split
  · next heq => rw [heq] at h1; exact h1
  · next r s2 heq =>
    rw [heq] at h1
    have h2 := traceOnly_interactE h1 s2.current.other (hplay s2.current move)
    split
    · next heq2 => rw [heq2] at h2; exact h2
    · next r2 s3 heq2 =>
      rw [heq2] at h2
      split
      · exact h2
      · exact h2

/-- A turn only writes frisbee-reg_genmove and frisbee-play commands. -/
theorem traceOnly_gameTurn {P : Cmd → Prop} (a : Args) (us : ℕ → ℚ) {s : St}
    (h : TraceOnly P s)
    (hgen : ∀ c, P (Cmd.frisbee_reg_genmove c))
    (hplay : ∀ c m, P (Cmd.frisbee_play c m)) :
    TurnOutTraceOnly P (gameTurn a us s) := by
  have h1 := traceOnly_writeCmd h s.current (hgen s.current)
  simp only [gameTurn]
  have h2 := traceOnly_popResp h1
    (writeCmd s s.current (Cmd.frisbee_reg_genmove s.current)).current
  split
  · next heq => rw [heq] at h2; exact h2
  · next ok prop s2 heq =>
    rw [heq] at h2
    split
    · exact h2
    · have h4 : TraceOnly P (setPassed
        (if r2mDraws a.allow_invalid s2.board s2.ko s2.current prop then
          { s2 with rndIdx := s2.rndIdx + 1 } else s2)
        (if r2mDraws a.allow_invalid s2.board s2.ko s2.current prop then
          { s2 with rndIdx := s2.rndIdx + 1 } else s2).current
        (hasPassedB (response2move a.allow_invalid a.epsilon s2.board s2.ko s2.current prop
          (us s2.rndIdx)).2)) := by
        refine traceOnly_setPassed ?_ _ _
        split
        · exact h2
        · exact h2
      split
      · next r c heq2 =>
        split
        · exact h4
        · next b2 cap heq3 =>
          refine traceOnly_turnReport ?_ hplay _
          exact h4
      · refine traceOnly_turnReport ?_ hplay _
        exact h4
      · refine traceOnly_turnReport ?_ hplay _
        exact h4

/-- The loop only writes genmove and play commands. -/
theorem traceOnly_gameLoop {P : Cmd → Prop} (a : Args) (us : ℕ → ℚ)
    (hgen : ∀ c, P (Cmd.frisbee_reg_genmove c))
    (hplay : ∀ c m, P (Cmd.frisbee_play c m)) :
    ∀ (fuel : ℕ) {s : St}, TraceOnly P s → TraceOnly P (gameLoop a us fuel s).1 := by
  intro fuel
  induction fuel with
  | zero => intro s h; exact h
  | succ n ih =>
    intro s h
    rw [gameLoop]
    have ht := traceOnly_gameTurn a us h hgen hplay
    split
    · next s2 heq => rw [heq] at ht; exact ht
    · next s2 heq => rw [heq] at ht; exact ht
    · next s2 heq => rw [heq] at ht; exact ih ht

/-- The quit pair preserves a predicate holding of quit. -/
theorem traceOnly_sendQuit {P : Cmd → Prop} {s : St} (h : TraceOnly P s)
    (hq : P Cmd.quit) : TraceOnly P (sendQuit s) :=
  traceOnly_writeCmd (traceOnly_writeCmd h s.current hq) s.current.other hq

/-- Master trace invariant of a full run: both traces only ever hold
commands the referee can emit. -/
theorem traceOnly_mainModel {P : Cmd → Prop}
    (hlc : P Cmd.list_commands) (hname : P Cmd.name)
    (hbs : ∀ n, P (Cmd.boardsize n)) (hk : ∀ q, P (Cmd.komi q))
    (hgen : ∀ c, P (Cmd.frisbee_reg_genmove c))
    (hplay : ∀ c m, P (Cmd.frisbee_play c m))
    (hq : P Cmd.quit) :
    ∀ (a : Args) (us : ℕ → ℚ) (bS wS : List Resp) (fuel : ℕ),
      (∀ cmd, cmd ∈ (mainModel a us bS wS fuel).traceB → P cmd) ∧
      (∀ cmd, cmd ∈ (mainModel a us bS wS fuel).traceW → P cmd) := by
  intro a us bS wS fuel
  have h0 : TraceOnly P (initSt a bS wS) := by
    constructor <;> intro x hx <;> simp [initSt] at hx
  unfold mainModel
  have hs := traceOnly_startup a h0 hlc hname hbs hk
  split
  · next s heq => rw [heq] at hs; exact hs
  · next s heq =>
    rw [heq] at hs
    have hl := traceOnly_gameLoop a us hgen hplay fuel hs
    split
    · next s2 heq2 => rw [heq2] at hl; exact hl
    · next s2 heq2 => rw [heq2] at hl; exact traceOnly_sendQuit hl hq
    · next s2 heq2 => rw [heq2] at hl; exact traceOnly_sendQuit hl hq
    · next s2 heq2 => rw [heq2] at hl; exact traceOnly_sendQuit hl hq

/-- C1: no run of the referee ever writes a frisbee-epsilon command to
either engine, for any arguments, scripts, random source or fuel — even
though the docstring and the protocol section require it to be sent once
to each engine at game start. -/
theorem epsilon_command_never_emitted :
    ∀ (a : Args) (us : ℕ → ℚ) (bS wS : List Resp) (fuel : ℕ) (e : ℚ),
      Cmd.frisbee_epsilon e ∉ (mainModel a us bS wS fuel).traceB ∧
      Cmd.frisbee_epsilon e ∉ (mainModel a us bS wS fuel).traceW := by
  intro a us bS wS fuel e
  have h := @traceOnly_mainModel (fun cmd => ∀ x : ℚ, cmd ≠ Cmd.frisbee_epsilon x)
    (fun x h => by cases h) (fun x h => by cases h)
    (fun n x h => by cases h) (fun q x h => by cases h)
    (fun c x h => by cases h) (fun c m x h => by cases h)
    (fun x h => by cases h) a us bS wS fuel
  exact ⟨fun hmem => h.1 _ hmem e rfl, fun hmem => h.2 _ hmem e rfl⟩

/-- The loop never reports a startup failure. -/
theorem gameLoop_exit_ne_startup (a : Args) (us : ℕ → ℚ) :
    ∀ (fuel : ℕ) (s : St), (gameLoop a us fuel s).2 ≠ ExitKind.startupError := by
  intro fuel
  induction fuel with
  | zero =>
    intro s h
    cases h
  | succ n ih =>
    intro s
    rw [gameLoop]
    split
    · intro h; cases h
    · intro h; cases h
    · next s2 heq => exact ih s2

/-- The finally block puts quit on both traces. -/
theorem sendQuit_quit_mem (s : St) :
    Cmd.quit ∈ (sendQuit s).traceB ∧ Cmd.quit ∈ (sendQuit s).traceW := by
  cases hc : s.current <;>
    simp [sendQuit, writeCmd, Color.other, hc]

/-- C9 amended: quit is written to both engines on every exit path that
reaches the game loop — the normal double-pass break and every fatal
error raised inside the loop — but on a startup or handshake failure,
which escapes before the try/finally, no quit is written at all. -/
theorem quit_on_loop_exit_paths :
    ∀ (a : Args) (us : ℕ → ℚ) (bS wS : List Resp) (fuel : ℕ),
      (((mainModel a us bS wS fuel).exit = ExitKind.normal ∨
        (mainModel a us bS wS fuel).exit = ExitKind.loopError) →
        Cmd.quit ∈ (mainModel a us bS wS fuel).traceB ∧
        Cmd.quit ∈ (mainModel a us bS wS fuel).traceW) ∧
      ((mainModel a us bS wS fuel).exit = ExitKind.startupError →
        Cmd.quit ∉ (mainModel a us bS wS fuel).traceB ∧
        Cmd.quit ∉ (mainModel a us bS wS fuel).traceW) := by
  intro a us bS wS fuel
  have h0 : TraceOnly (fun cmd => cmd ≠ Cmd.quit) (initSt a bS wS) := by
    constructor <;> intro x hx <;> simp [initSt] at hx
  unfold mainModel
  have hsu := traceOnly_startup a h0
    (fun h => by cases h) (fun h => by cases h)
    (fun n h => by cases h) (fun q h => by cases h)
  split
  · next s heq =>
    rw [heq] at hsu
    constructor
    · rintro (h | h) <;> cases h
    · intro _
      exact ⟨fun hmem => hsu.1 _ hmem rfl, fun hmem => hsu.2 _ hmem rfl⟩
  · next s heq =>
    split
    · next s2 heq2 =>
      constructor
      · rintro (h | h) <;> cases h
      · intro h
        cases h
    · next s2 heq2 =>
      constructor
      · intro _
        exact sendQuit_quit_mem s2
      · intro h
        cases h
    · next s2 heq2 =>
      constructor
      · intro _
        exact sendQuit_quit_mem s2
      · intro h
        cases h
    · next s2 heq2 =>
      exact absurd (by rw [heq2]) (gameLoop_exit_ne_startup a us fuel s)

/-- Witness for the quit discipline: a completed pass-pass game carries
quit on both traces, and a failed handshake carries it on neither. -/
theorem quit_on_loop_exit_paths_witness :
    (Cmd.quit ∈ (mainModel argsDefault usZero (famBlack true true true true)
        (famWhite true true true true) 5).traceB ∧
     Cmd.quit ∈ (mainModel argsDefault usZero (famBlack true true true true)
        (famWhite true true true true) 5).traceW) ∧
    (Cmd.quit ∉ (mainModel argsDefault usZero failHandshakeScript [] 5).traceB ∧
     Cmd.quit ∉ (mainModel argsDefault usZero failHandshakeScript [] 5).traceW) :=
  ⟨(quit_on_loop_exit_paths argsDefault usZero (famBlack true true true true)
      (famWhite true true true true) 5).1 (Or.inl (by decide)),
   (quit_on_loop_exit_paths argsDefault usZero failHandshakeScript [] 5).2 (by decide)⟩

/-- C9 counterexample: when the very first handshake response of black fails,
the run exits on the startup path and no quit is ever sent to either
engine, refuting the claim that every exit path sends quit to both. -/
theorem startup_failure_no_quit_cex :
    (mainModel argsDefault usZero failHandshakeScript [] 5).exit = ExitKind.startupError ∧
    Cmd.quit ∉ (mainModel argsDefault usZero failHandshakeScript [] 5).traceB ∧
    Cmd.quit ∉ (mainModel argsDefault usZero failHandshakeScript [] 5).traceW := by
  refine ⟨by decide, by decide, by decide⟩

/-- C2 counterexample: a run in which the engines answer the boardsize,
komi and frisbee-play commands with failure responses still plays to a
normal double-pass finish — the referee reads these responses but never
checks their success flag, so nothing aborts. -/
theorem failed_setup_response_not_fatal_cex :
    (mainModel argsDefault usZero (famBlack false true false true)
      (famWhite true false false false) 5).exit = ExitKind.normal ∧
    Cmd.frisbee_reg_genmove Color.W ∈ (mainModel argsDefault usZero
      (famBlack false true false true) (famWhite true false false false) 5).traceW ∧
    Cmd.quit ∈ (mainModel argsDefault usZero (famBlack false true false true)
      (famWhite true false false false) 5).traceB := by
  refine ⟨by decide, by decide, by decide⟩

/-- C2 amended: only the frisbee-reg_genmove response (and the handshake,
covered by startup) is checked: a failure response there aborts the turn
fatally; the success flags of the boardsize, komi and frisbee-play
responses are read and discarded, and the game runs to normal completion
whatever they are; frisbee-epsilon is never issued at all. -/
theorem genmove_failure_fatal_others_ignored :
    (∀ (a : Args) (us : ℕ → ℚ) (s : St) (p : Proposal) (rest : List Resp),
      s.script s.current = (false, p) :: rest →
      ∃ s2, gameTurn a us s = TurnOut.err s2) ∧
    (∀ bb bk bp1 bp2 wb wk wp1 wp2 : Bool,
      (mainModel argsDefault usZero (famBlack bb bk bp1 bp2)
        (famWhite wb wk wp1 wp2) 5).exit = ExitKind.normal) := by
  constructor
  · intro a us s p rest h
    cases hc : s.current
    · have hb : s.bScript = (false, p) :: rest := by rw [hc] at h; exact h
      refine Exists.intro
        { s with traceB := s.traceB ++ [Cmd.frisbee_reg_genmove Color.B], bScript := rest } ?_
      simp [gameTurn, writeCmd, popResp, hc, hb]
    · have hw : s.wScript = (false, p) :: rest := by rw [hc] at h; exact h
      refine Exists.intro
        { s with traceW := s.traceW ++ [Cmd.frisbee_reg_genmove Color.W], wScript := rest } ?_
      simp [gameTurn, writeCmd, popResp, hc, hw]
  · decide

/-- Witness: the genmove-failure abort at a concrete state, and one
concrete assignment of ignored failure flags that still ends normally. -/
theorem genmove_failure_fatal_others_ignored_witness :
    (∃ s2, gameTurn argsDefault usZero
        (initSt argsDefault failHandshakeScript []) = TurnOut.err s2) ∧
    (mainModel argsDefault usZero (famBlack true false true false)
      (famWhite false true false true) 5).exit = ExitKind.normal :=
  ⟨genmove_failure_fatal_others_ignored.1 argsDefault usZero
      (initSt argsDefault failHandshakeScript []) Proposal.passResp [] (by decide),
   genmove_failure_fatal_others_ignored.2 true false true false false true false true⟩

end Frisbee
